import Mathlib

/-!
Verification of the rate-limiter core (Go sources) against its
natural-language specification.

The development shallowly embeds the relevant Go code:

* `internal/domain/entities.go`   — data model (`RateLimitStatus`,
  `RateLimitResult`, `RateLimitRule`, `RateLimitConfig`, `LimiterType`);
* `internal/storage/memory.go`    — the local (in-memory) backend, modelled
  as a pure state machine over association maps, with the observation
  instant `now : Int` passed explicitly (Go reads `time.Now()`);
* `internal/storage/redis.go`     — the networked backend, modelled as a
  key/value map with explicit expiry instants (Redis TTL);
* `internal/service` (`RateLimiterService`) — the decision engine
  `CheckLimit`, modelled as a pure function of the storage replies, also
  recording which storage operations were invoked and which log events
  were emitted;
* `internal/middleware` (`RateLimiterMiddleware.setRateLimitHeaders`,
  `maskToken`) and `internal/config` (`validateConfig`).

Timestamps and durations use a single abstract integer time unit
(seconds); strings are Lean `String`s, and the credential mask works on
`List Char` (Go slices bytes; the claims speak of characters, and the two
coincide on one-byte characters).
-/

/-- Go `domain.LimiterType` (string type with the two constants
`IPLimiter = "ip"` and `TokenLimiter = "token"`). -/
inductive LimiterType where
  | ip
  | token
deriving DecidableEq, Repr

/-- The string value carried by a `LimiterType` constant in Go. -/
def limiterTypeStr : LimiterType → String
  | .ip => "ip"
  | .token => "token"

/-- Go `domain.TokenConfig` (the per-credential entry of `tokens.json`). -/
structure TokenConfig where
  token : String
  limit : Int
deriving DecidableEq, Repr

/-- Go `domain.RateLimitConfig`: the frozen configuration injected into the
engine.  `tokenConfigs` models the Go map `map[string]TokenConfig`. -/
structure RateLimitConfig where
  defaultIPLimit : Int
  defaultTokenLimit : Int
  window : Int
  blockDuration : Int
  tokenConfigs : String → Option TokenConfig

/-- Go `domain.RateLimitRule` (the `ID` and `Description` strings, which are
only human-readable labels, are not modelled). -/
structure RateLimitRule where
  type : LimiterType
  key : String
  limit : Int
  window : Int
  blockDuration : Int
deriving DecidableEq, Repr

/-- Go `domain.RateLimitStatus`: the per-bucket state persisted by a
storage backend.  `type` is `none` for the Go zero value `""`. -/
structure RateLimitStatus where
  key : String
  type : Option LimiterType
  count : Int
  limit : Int
  window : Int
  lastReset : Int
  blockedUntil : Option Int
  isBlocked : Bool
deriving DecidableEq, Repr

/-- Go `domain.RateLimitResult`: the engine's decision. -/
structure RateLimitResult where
  allowed : Bool
  limit : Int
  remaining : Int
  resetTime : Int
  blockedUntil : Option Int
  limiterType : LimiterType
deriving DecidableEq, Repr

/-! ### String helpers (Go `strings` and the credential mask) -/

/-- Go `unicode.IsSpace` restricted to the code points Go treats as white
space in Latin-1: space, tab, newline, vertical tab, form feed, carriage
return, NEL (U+0085) and NBSP (U+00A0). -/
def goIsSpace (c : Char) : Bool :=
  c = ' ' || c = '\t' || c = '\n' || c = Char.ofNat 11 || c = Char.ofNat 12 ||
    c = '\r' || c = Char.ofNat 0x85 || c = Char.ofNat 0xA0

/-- Go `strings.TrimSpace` on a character list: drop white space from both
ends. -/
def goTrimSpaceList (l : List Char) : List Char :=
  ((l.dropWhile goIsSpace).reverse.dropWhile goIsSpace).reverse

/-- Go `strings.TrimSpace`. -/
def goTrimSpace (s : String) : String :=
  ⟨goTrimSpaceList s.data⟩

/-- Go `maskToken` as written identically in
`RateLimiterMiddleware.maskToken` and `RateLimiterService.maskToken`
(and inlined, for non-empty tokens, in
`StructuredLogger.extractContextFields`): empty stays empty; a token of
length at most 8 is returned whole followed by `***`; a longer token is
cut to its first 8 characters followed by `***`. -/
def maskToken (token : List Char) : List Char :=
  if token = [] then []
  else if token.length ≤ 8 then token ++ "***".data
  else token.take 8 ++ "***".data

/-! ### Local backend: `internal/storage/memory.go`

`MemoryStorage` holds two maps guarded by one lock: `data : key →
RateLimitStatus` and `blocks : key → blocked-until instant`.  Both are
modelled as functions into `Option`.  Every operation takes the current
instant `now` explicitly (the Go code reads `time.Now()`). -/

/-- Point update of an association map. -/
def mapSet {α : Type} (f : String → Option α) (k : String) (v : Option α) :
    String → Option α :=
  fun k' => if k' = k then v else f k'

/-- The two maps of Go `MemoryStorage`. -/
structure MemoryState where
  data : String → Option RateLimitStatus
  blocks : String → Option Int

/-- The state of a freshly constructed `MemoryStorage` (both maps empty). -/
def emptyMemoryState : MemoryState :=
  { data := fun _ => none, blocks := fun _ => none }

/-- Go `MemoryStorage.Increment(key, limit, window)` at instant `now`.
Returns `(new count, LastReset, new state)`.  Faithful to the source:
a missing entry is created with `Count = 0` and `LastReset = now`; if
`now - LastReset ≥ window` the window is reopened (`Count = 0`,
`LastReset = now`, `IsBlocked = false`, and the `blocks` entry is
deleted); then `Count++`, and `IsBlocked` is set when `Count > limit`. -/
def memIncrement (st : MemoryState) (key : String) (limit window now : Int) :
    Int × Int × MemoryState :=
  let status :=
    match st.data key with
    | some s => s
    | none =>
        { key := key, type := none, count := 0, limit := limit,
          window := window, lastReset := now, blockedUntil := none,
          isBlocked := false }
  let reset := window ≤ now - status.lastReset
  let status1 :=
    if reset then
      { status with count := 0, lastReset := now, isBlocked := false }
    else status
  let blocks1 := if reset then mapSet st.blocks key none else st.blocks
  let status2 := { status1 with count := status1.count + 1 }
  let status3 :=
    { status2 with
      isBlocked := if limit < status2.count then true else status2.isBlocked }
  (status3.count, status3.lastReset,
    { data := mapSet st.data key (some status3), blocks := blocks1 })

/-- Go `MemoryStorage.IsBlocked(key)` at instant `now`.  Returns
`(blocked, blockedUntil, new state)`.  Faithful to the source: an entry in
`blocks` whose instant is still in the future answers `true`; an expired
entry is deleted and the code falls through to the `data` map, answering
`status.IsBlocked` / `status.BlockedUntil` (or `false` for a missing
entry). -/
def memIsBlocked (st : MemoryState) (key : String) (now : Int) :
    Bool × Option Int × MemoryState :=
  let fall := fun (st' : MemoryState) =>
    match st'.data key with
    | none => (false, none, st')
    | some s => (s.isBlocked, s.blockedUntil, st')
  match st.blocks key with
  | some bu =>
      if now < bu then (true, some bu, st)
      else fall { st with blocks := mapSet st.blocks key none }
  | none => fall st

/-- Go `MemoryStorage.Block(key, duration)` at instant `now`: records
`blocks[key] = now + duration` and marks the `data` entry blocked
(creating a zero-valued one when missing, as the source does). -/
def memBlock (st : MemoryState) (key : String) (duration now : Int) :
    MemoryState :=
  let blockedUntil := now + duration
  let data1 :=
    match st.data key with
    | some s =>
        mapSet st.data key
          (some { s with isBlocked := true, blockedUntil := some blockedUntil })
    | none =>
        mapSet st.data key
          (some { key := key, type := none, count := 0, limit := 0,
                  window := 0, lastReset := now,
                  blockedUntil := some blockedUntil, isBlocked := true })
  { data := data1, blocks := mapSet st.blocks key (some blockedUntil) }

/-- Go `MemoryStorage.Reset(key)`: deletes both entries. -/
def memReset (st : MemoryState) (key : String) : MemoryState :=
  { data := mapSet st.data key none, blocks := mapSet st.blocks key none }

/-- Go `MemoryStorage.Get(key)`: a snapshot of the `data` entry. -/
def memGet (st : MemoryState) (key : String) : Option RateLimitStatus :=
  st.data key

/-- Iterated `memIncrement` over a list of call instants; returns the list
of returned counts and the final state. -/
def memIncrementRun (st : MemoryState) (key : String) (limit window : Int) :
    List Int → List Int × MemoryState
  | [] => ([], st)
  | t :: ts =>
      let r := memIncrement st key limit window t
      let rest := memIncrementRun r.2.2 key limit window ts
      (r.1 :: rest.1, rest.2)

/-! ### Networked backend: `internal/storage/redis.go`

The Redis key space is modelled as a map from key to the decoded
`RateLimitStatus` together with the absolute instant at which Redis will
expire the key (the TTL set by `SET ... EX`); a read at or past that
instant behaves like `redis.Nil`.  Time uses the same abstract unit as the
rest of the development (the Go code mixes milliseconds and seconds but
keeps them consistent). -/

/-- The Redis key space: value plus expiry instant. -/
structure RedisState where
  store : String → Option (RateLimitStatus × Int)

/-- An empty Redis key space. -/
def emptyRedisState : RedisState :=
  { store := fun _ => none }

/-- Go `RedisStorage.Get(key)` at instant `now`: `redis.Nil` (here `none`)
for a missing or expired key, otherwise the decoded status. -/
def redisGet (st : RedisState) (key : String) (now : Int) :
    Option RateLimitStatus :=
  match st.store key with
  | some (v, expiry) => if now < expiry then some v else none
  | none => none

/-- Go `RedisStorage.IsBlocked(key)` at instant `now`: reads the status and
returns its `IsBlocked` / `BlockedUntil` fields verbatim (`false` for a
missing key).  The source performs no comparison of `now` against
`BlockedUntil`. -/
def redisIsBlocked (st : RedisState) (key : String) (now : Int) :
    Bool × Option Int :=
  match redisGet st key now with
  | none => (false, none)
  | some s => (s.isBlocked, s.blockedUntil)

/-- Go `RedisStorage.Increment(key, limit, window)` at instant `now`: the
Lua script.  Reopens the window when `now - lastReset ≥ window`, increments
the counter, marks `isBlocked` on overflow, and writes the state back with
TTL `window - timeSinceReset` (or `window` when that is not positive).
Returns `(count, lastReset, new state)`. -/
def redisIncrement (st : RedisState) (key : String) (limit window now : Int) :
    Int × Int × RedisState :=
  let data :=
    match redisGet st key now with
    | some s => s
    | none =>
        { key := key, type := none, count := 0, limit := limit,
          window := window, lastReset := now, blockedUntil := none,
          isBlocked := false }
  let timeSinceReset := now - data.lastReset
  let data1 :=
    if window ≤ timeSinceReset then
      { data with count := 0, lastReset := now, isBlocked := false }
    else data
  let data2 := { data1 with count := data1.count + 1 }
  let data3 :=
    { data2 with
      isBlocked := if limit < data2.count then true else data2.isBlocked }
  let ttl0 := window - timeSinceReset
  let ttl := if ttl0 ≤ 0 then window else ttl0
  (data3.count, data3.lastReset,
    { store := mapSet st.store key (some (data3, now + ttl)) })

/-- Go `RedisStorage.Block(key, duration)` at instant `now`: reads the
status (creating a zero-valued blocked one when missing), sets
`IsBlocked = true` and `BlockedUntil = now + duration`, and writes it back
with TTL `duration + time.Minute` (one minute is 60 of our time units). -/
def redisBlock (st : RedisState) (key : String) (duration now : Int) :
    RedisState :=
  let blockedUntil := now + duration
  let status :=
    match redisGet st key now with
    | none =>
        { key := key, type := none, count := 0, limit := 0, window := 0,
          lastReset := now, blockedUntil := some blockedUntil,
          isBlocked := true }
    | some s => { s with isBlocked := true, blockedUntil := some blockedUntil }
  { store := mapSet st.store key (some (status, now + duration + 60)) }

/-! ### Decision engine: `internal/service` (`RateLimiterService`)

`CheckLimit` performs at most three storage calls (`IsBlocked`,
`Increment`, `Block`).  The engine is embedded as a pure function of the
replies those calls would produce, and the outcome additionally records
which storage operations were reached and which log events were emitted,
so that frame conditions ("does not call increment", "failure is reported
to the logging sink") are statable. -/

/-- Go `RateLimiterService.detectLimiterType(ip, token)`: trims the token;
a non-empty trimmed token selects the token limiter with the trimmed token
as identity, otherwise the IP limiter with the IP as identity. -/
def detectLimiterType (ip token : String) : LimiterType × String :=
  let token := goTrimSpace token
  if token ≠ "" then (LimiterType.token, token)
  else (LimiterType.ip, ip)

/-- Go `RateLimiterService.buildStorageKey`. -/
def buildStorageKey (key : String) (lt : LimiterType) : String :=
  "rate_limit:" ++ limiterTypeStr lt ++ ":" ++ key

/-- Go `RateLimiterService.GetConfig(key, limiterType)`: resolves the rule
from the frozen configuration; a token found in `TokenConfigs` uses its
per-token limit, otherwise the default token limit; IPs use the default IP
limit.  (The Go `switch` also has an unreachable `default` arm for unknown
limiter types; the two-constructor `LimiterType` makes it vacuous.) -/
def getConfig (cfg : RateLimitConfig) (key : String) (lt : LimiterType) :
    RateLimitRule :=
  let limit :=
    match lt with
    | .ip => cfg.defaultIPLimit
    | .token =>
        match cfg.tokenConfigs key with
        | some tc => tc.limit
        | none => cfg.defaultTokenLimit
  { type := lt, key := key, limit := limit, window := cfg.window,
    blockDuration := cfg.blockDuration }

/-- The rule `CheckLimit` resolves for a given `(ip, token)` input:
`GetConfig` applied to the detected limiter type and identity. -/
def resolvedRule (cfg : RateLimitConfig) (ip token : String) : RateLimitRule :=
  let p := detectLimiterType ip token
  getConfig cfg p.2 p.1

/-- The replies the storage would give to the (at most) three calls one
`CheckLimit` run performs.  `Except Unit` models a Go `error` return. -/
structure StoreReplies where
  isBlockedReply : Except Unit (Bool × Option Int)
  incrementReply : Except Unit (Int × Int)
  blockOk : Bool

/-- The storage operations `CheckLimit` can invoke. -/
inductive StoreOp where
  | isBlockedOp
  | incrementOp
  | blockOp
deriving DecidableEq, Repr

/-- The log events `CheckLimit` can emit, one per logging call site in the
source. -/
inductive LogEvent where
  | debugCheckInitiated
  | errorIsBlockedFailed
  | infoRequestBlocked
  | errorIncrementFailed
  | errorBlockFailed
  | infoLimitExceeded
  | debugRequestAllowed
deriving DecidableEq, Repr

/-- The outcome of one `CheckLimit` run: the returned
`(*RateLimitResult, error)` pair, the emitted log events, and the storage
operations that were reached. -/
structure CheckOutcome where
  result : Except Unit RateLimitResult
  log : List LogEvent
  ops : List StoreOp

/-- Go `RateLimiterService.CheckLimit(ip, token)` at instant `now`, as a
function of the storage replies `r`.  Faithful to the source: a blocked
key is denied with `Remaining = 0`, `ResetTime = now + rule.Window` and
the reported `BlockedUntil`, without reaching `Increment`; otherwise the
counter is incremented, `remaining = max(0, limit - count)`,
`allowed = (count ≤ limit)` (inclusive), and on overflow `Block` is
invoked — its failure is logged but the deny decision is returned with
`BlockedUntil = now + rule.BlockDuration` and no error either way.  The
`ResetTime` of both post-increment results is the second value returned by
`Increment` (the window start). -/
def checkLimit (cfg : RateLimitConfig) (now : Int) (ip token : String)
    (r : StoreReplies) : CheckOutcome :=
  let p := detectLimiterType ip token
  match r.isBlockedReply with
  | .error _ =>
      { result := .error (),
        log := [.debugCheckInitiated, .errorIsBlockedFailed],
        ops := [.isBlockedOp] }
  | .ok (true, blockedUntil) =>
      let rule := getConfig cfg p.2 p.1
      { result := .ok
          { allowed := false, limit := rule.limit, remaining := 0,
            resetTime := now + rule.window, blockedUntil := blockedUntil,
            limiterType := p.1 },
        log := [.debugCheckInitiated, .infoRequestBlocked],
        ops := [.isBlockedOp] }
  | .ok (false, _) =>
      let rule := getConfig cfg p.2 p.1
      match r.incrementReply with
      | .error _ =>
          { result := .error (),
            log := [.debugCheckInitiated, .errorIncrementFailed],
            ops := [.isBlockedOp, .incrementOp] }
      | .ok (currentCount, resetTime) =>
          let remaining :=
            if rule.limit - currentCount < 0 then 0
            else rule.limit - currentCount
          let allowed : Bool := currentCount ≤ rule.limit
          if allowed then
            { result := .ok
                { allowed := true, limit := rule.limit,
                  remaining := remaining, resetTime := resetTime,
                  blockedUntil := none, limiterType := p.1 },
              log := [.debugCheckInitiated, .debugRequestAllowed],
              ops := [.isBlockedOp, .incrementOp] }
          else
            let blockTime := now + rule.blockDuration
            { result := .ok
                { allowed := false, limit := rule.limit, remaining := 0,
                  resetTime := resetTime, blockedUntil := some blockTime,
                  limiterType := p.1 },
              log := [.debugCheckInitiated] ++
                (if r.blockOk then [] else [.errorBlockFailed]) ++
                [.infoLimitExceeded],
              ops := [.isBlockedOp, .incrementOp, .blockOp] }

/-! ### Request gateway: `internal/middleware`

Only `setRateLimitHeaders` is needed by the claims. -/

/-- The response headers set by
`RateLimiterMiddleware.setRateLimitHeaders`; `retryAfter = none` means no
`Retry-After` header was emitted. -/
structure RateLimitHeaders where
  limitHeader : Int
  remainingHeader : Int
  resetHeader : Int
  typeHeader : LimiterType
  retryAfter : Option Int
deriving DecidableEq, Repr

/-- Go `RateLimiterMiddleware.setRateLimitHeaders(result)` at instant
`now`.  The four budget headers are always set; `Retry-After` is set only
when the request was denied, `BlockedUntil` is non-nil, and
`retryAfter := blockedUntil - now` is strictly positive. -/
def setRateLimitHeaders (result : RateLimitResult) (now : Int) :
    RateLimitHeaders :=
  let retryAfter :=
    if !result.allowed then
      match result.blockedUntil with
      | some bu => if 0 < bu - now then some (bu - now) else none
      | none => none
    else none
  { limitHeader := result.limit, remainingHeader := result.remaining,
    resetHeader := result.resetTime, typeHeader := result.limiterType,
    retryAfter := retryAfter }

/-! ### Configuration loading: `internal/config` -/

/-- The numeric fields of Go `config.Config` that `validateConfig`
inspects (the string-valued connection and logging fields are not
consulted by it). -/
structure GoConfig where
  redisDB : Int
  defaultIPLimit : Int
  defaultTokenLimit : Int
  rateWindow : Int
  blockDuration : Int
deriving DecidableEq, Repr

/-- Go `ConfigLoader.validateConfig`: the first violated constraint, as an
error message, or `ok`. -/
def validateConfig (c : GoConfig) : Except String Unit :=
  if c.defaultIPLimit ≤ 0 then
    .error "DEFAULT_IP_LIMIT must be greater than 0"
  else if c.defaultTokenLimit ≤ 0 then
    .error "DEFAULT_TOKEN_LIMIT must be greater than 0"
  else if c.rateWindow ≤ 0 then
    .error "RATE_WINDOW must be greater than 0"
  else if c.blockDuration ≤ 0 then
    .error "BLOCK_DURATION must be greater than 0"
  else if c.redisDB < 0 ∨ 15 < c.redisDB then
    .error "REDIS_DB must be between 0 and 15"
  else .ok ()

/-! ### Observation helpers and sample data -/

/-- The `allowed` flag of a successful engine result. -/
def resultAllowed : Except Unit RateLimitResult → Option Bool
  | .ok r => some r.allowed
  | .error _ => none

/-- The `blockedUntil` field of a successful engine result. -/
def resultBlockedUntil : Except Unit RateLimitResult → Option (Option Int)
  | .ok r => some r.blockedUntil
  | .error _ => none

/-- The expected sequence of counter values `c+1, c+2, …, c+n` returned by
`n` in-window increments that start from counter value `c`. -/
def countsFrom (c : Int) : Nat → List Int
  | 0 => []
  | n + 1 => (c + 1) :: countsFrom (c + 1) n

/-- A concrete configuration matching the spec's end-to-end scenario
values: IP limit 10, token limit 100, window 60 s, block 180 s, and the
credential `premium` mapped to limit 1000. -/
def sampleConfig : RateLimitConfig :=
  { defaultIPLimit := 10, defaultTokenLimit := 100, window := 60,
    blockDuration := 180,
    tokenConfigs := fun t =>
      if t = "premium" then some { token := "premium", limit := 1000 }
      else none }

/-- Sanity check relating `countsFrom` to the literal expected counts. -/
lemma countsFrom_zero_three : countsFrom 0 3 = [1, 2, 3] := by decide

/-! ## Claims -/

/-- Claim C9: the credential mask is a pure total function sending the
empty token to the empty string, a non-empty token of at most 8
characters to the whole token followed by "***", and a longer token to
its first 8 characters followed by "***". -/
theorem maskToken_cases :
    maskToken [] = [] ∧
    (∀ t : List Char, t ≠ [] → t.length ≤ 8 → maskToken t = t ++ "***".data) ∧
    (∀ t : List Char, 8 < t.length → maskToken t = t.take 8 ++ "***".data) := by
  refine ⟨rfl, ?_, ?_⟩
  · intro t ht hlen
    simp [maskToken, ht, hlen]
  · intro t hlen
    have ht : t ≠ [] := by
      intro h
      rw [h] at hlen
      simp at hlen
    simp [maskToken, ht, Nat.not_le.mpr hlen]

/-- Witness for C9 at the concrete tokens "secret" (6 chars) and
"verylongtoken" (13 chars). -/
theorem maskToken_cases_witness :
    maskToken "secret".data = "secret".data ++ "***".data ∧
    maskToken "verylongtoken".data =
      "verylongtoken".data.take 8 ++ "***".data := by
  constructor
  · exact maskToken_cases.2.1 "secret".data (by decide) (by decide)
  · exact maskToken_cases.2.2 "verylongtoken".data (by decide)

/-- Claim C8, counterexample: a configuration whose BLOCK_DURATION is 0
(a non-negative integer, which the claim says is accepted) is rejected by
`validateConfig` with a construction-time error. -/
theorem validateConfig_rejects_zero_blockDuration :
    (GoConfig.mk 0 10 100 60 0).blockDuration = 0 ∧
    validateConfig (GoConfig.mk 0 10 100 60 0) =
      Except.error "BLOCK_DURATION must be greater than 0" :=
  ⟨rfl, rfl⟩

/-- Claim C8 (amended): with the other enumerated constraints satisfied,
configuration loading accepts a BLOCK_DURATION value iff it is strictly
positive; 0 and negative values raise a construction-time error. -/
theorem validateConfig_ok_iff_blockDuration_pos (c : GoConfig)
    (hip : 0 < c.defaultIPLimit) (htok : 0 < c.defaultTokenLimit)
    (hwin : 0 < c.rateWindow) (hdb0 : 0 ≤ c.redisDB) (hdb15 : c.redisDB ≤ 15) :
    validateConfig c = Except.ok () ↔ 0 < c.blockDuration := by
  have h1 : ¬ c.defaultIPLimit ≤ 0 := by omega
  have h2 : ¬ c.defaultTokenLimit ≤ 0 := by omega
  have h3 : ¬ c.rateWindow ≤ 0 := by omega
  have h4 : ¬ (c.redisDB < 0 ∨ 15 < c.redisDB) := by omega
  by_cases hbd : c.blockDuration ≤ 0 <;>
    · simp [validateConfig, h1, h2, h3, h4, hbd]
      try omega

/-- Witness for the amended C8 at the default configuration values. -/
theorem validateConfig_ok_iff_blockDuration_pos_witness :
    validateConfig (GoConfig.mk 0 10 100 60 180) = Except.ok () ↔
      (0 : Int) < (GoConfig.mk 0 10 100 60 180).blockDuration :=
  validateConfig_ok_iff_blockDuration_pos (GoConfig.mk 0 10 100 60 180)
    (by decide) (by decide) (by decide) (by decide) (by decide)

/-- Claim C7, counterexample: a denied result whose `BlockedUntil` is nil
gets no Retry-After header at all, although the claim requires the header
with value max(0, blocked_until − now) on every denied request. -/
theorem retryAfter_missing_on_denied_without_block :
    (RateLimitResult.mk false 10 0 60 none LimiterType.ip).allowed = false ∧
    (setRateLimitHeaders (RateLimitResult.mk false 10 0 60 none LimiterType.ip)
        0).retryAfter = none :=
  ⟨rfl, rfl⟩

/-- Claim C7 (amended): for a denied request the gateway sets Retry-After
iff `BlockedUntil` is present and strictly in the future; in that case the
value is `blocked_until − now`, which then coincides with
max(0, blocked_until − now).  Otherwise no Retry-After header is set. -/
theorem retryAfter_iff_future_block (r : RateLimitResult) (now : Int)
    (hdenied : r.allowed = false) :
    ((setRateLimitHeaders r now).retryAfter.isSome ↔
      ∃ bu, r.blockedUntil = some bu ∧ now < bu) ∧
    ∀ bu, r.blockedUntil = some bu → now < bu →
      (setRateLimitHeaders r now).retryAfter = some (bu - now) ∧
      bu - now = max 0 (bu - now) := by
  constructor
  · cases h : r.blockedUntil with
    | none => simp [setRateLimitHeaders, hdenied, h]
    | some bu =>
        by_cases hfut : 0 < bu - now <;>
          simp [setRateLimitHeaders, hdenied, h, hfut] <;> omega
  · intro bu hbu hlt
    have hfut : 0 < bu - now := by omega
    refine ⟨by simp [setRateLimitHeaders, hdenied, hbu, hfut], ?_⟩
    omega

/-- Witness for the amended C7: a request denied at instant 40 with
`BlockedUntil = 100` carries Retry-After 60. -/
theorem retryAfter_iff_future_block_witness :
    (setRateLimitHeaders (RateLimitResult.mk false 10 0 60 (some 100)
        LimiterType.ip) 40).retryAfter = some (100 - 40) ∧
    (100 : Int) - 40 = max 0 (100 - 40) :=
  (retryAfter_iff_future_block
      (RateLimitResult.mk false 10 0 60 (some 100) LimiterType.ip) 40
      rfl).2 100 rfl (by decide)

/-- Claim C1: whenever `CheckLimit` reaches the increment step (the block
check answered "not blocked" and the increment succeeded), the returned
decision's `Allowed` flag equals `count ≤ limit` for the resolved rule's
limit — so a call whose returned count is at most the limit is allowed
and the (limit+1)-th hit in a window is the first denied one. -/
theorem checkLimit_allowed_iff_count_le_limit (cfg : RateLimitConfig)
    (now : Int) (ip token : String) (bu : Option Int)
    (count lastReset : Int) (bOk : Bool) :
    resultAllowed (checkLimit cfg now ip token
        ⟨.ok (false, bu), .ok (count, lastReset), bOk⟩).result =
      some (decide (count ≤ (resolvedRule cfg ip token).limit)) := by
  by_cases hle : count ≤
      (getConfig cfg (detectLimiterType ip token).2
        (detectLimiterType ip token).1).limit <;>
    simp [checkLimit, resolvedRule, resultAllowed, hle]

/-- Claim C4, counterexample: the store can report a key blocked without
an expiry (the memory backend does so after pure counter overflow: eleven
increments against limit 10 yield `IsBlocked = true` with a nil
`BlockedUntil` and no `blocks` entry), and `CheckLimit` then returns the
deny decision with `BlockedUntil = nil` — the claim's "blocked_until set"
fails. -/
theorem blocked_reply_without_expiry_counterexample :
    (memIsBlocked (memIncrementRun emptyMemoryState "rate_limit:ip:1.2.3.4"
        10 60 (List.replicate 11 0)).2 "rate_limit:ip:1.2.3.4" 0).1 = true ∧
    (memIsBlocked (memIncrementRun emptyMemoryState "rate_limit:ip:1.2.3.4"
        10 60 (List.replicate 11 0)).2 "rate_limit:ip:1.2.3.4" 0).2.1 =
      none ∧
    resultAllowed (checkLimit sampleConfig 0 "1.2.3.4" ""
        ⟨.ok (true, none), .ok (11, 0), true⟩).result = some false ∧
    resultBlockedUntil (checkLimit sampleConfig 0 "1.2.3.4" ""
        ⟨.ok (true, none), .ok (11, 0), true⟩).result = some none := by
  refine ⟨by decide, by decide, rfl, rfl⟩

/-- Claim C4 (amended): whenever `is_blocked` reports the key blocked,
`CheckLimit` returns a deny decision with `Remaining = 0`,
`ResetTime = now + window`, and `BlockedUntil` equal to whatever expiry
the store reported (present exactly when the store reported one), and the
increment operation is never invoked, leaving the counter unchanged. -/
theorem blocked_decision_shape (cfg : RateLimitConfig) (now : Int)
    (ip token : String) (bu : Option Int)
    (incReply : Except Unit (Int × Int)) (bOk : Bool) :
    (checkLimit cfg now ip token ⟨.ok (true, bu), incReply, bOk⟩).result =
      .ok { allowed := false, limit := (resolvedRule cfg ip token).limit,
            remaining := 0,
            resetTime := now + (resolvedRule cfg ip token).window,
            blockedUntil := bu,
            limiterType := (detectLimiterType ip token).1 } ∧
    StoreOp.incrementOp ∉
      (checkLimit cfg now ip token ⟨.ok (true, bu), incReply, bOk⟩).ops := by
  constructor
  · simp [checkLimit, resolvedRule]
  · simp [checkLimit]

/-- Claim C6: when the post-overflow `Block` call fails, `CheckLimit`
still returns the deny decision (allowed = false, remaining = 0,
blocked_until = now + block duration) with no error, the failure appears
in the log, and the returned result is identical to the one returned when
`Block` succeeds. -/
theorem block_failure_preserves_deny (cfg : RateLimitConfig) (now : Int)
    (ip token : String) (bu : Option Int) (count lastReset : Int)
    (hover : (resolvedRule cfg ip token).limit < count) :
    (checkLimit cfg now ip token
        ⟨.ok (false, bu), .ok (count, lastReset), false⟩).result =
      .ok { allowed := false, limit := (resolvedRule cfg ip token).limit,
            remaining := 0, resetTime := lastReset,
            blockedUntil :=
              some (now + (resolvedRule cfg ip token).blockDuration),
            limiterType := (detectLimiterType ip token).1 } ∧
    LogEvent.errorBlockFailed ∈
      (checkLimit cfg now ip token
        ⟨.ok (false, bu), .ok (count, lastReset), false⟩).log ∧
    (checkLimit cfg now ip token
        ⟨.ok (false, bu), .ok (count, lastReset), false⟩).result =
      (checkLimit cfg now ip token
        ⟨.ok (false, bu), .ok (count, lastReset), true⟩).result := by
  have hnle : ¬ count ≤
      (getConfig cfg (detectLimiterType ip token).2
        (detectLimiterType ip token).1).limit := by
    simp only [resolvedRule] at hover
    omega
  refine ⟨?_, ?_, ?_⟩ <;> simp [checkLimit, resolvedRule, hnle]

/-- Witness for C6: an overflowing IP call (count 11 against limit 10)
whose `Block` call fails. -/
theorem block_failure_preserves_deny_witness :
    (checkLimit sampleConfig 0 "1.2.3.4" ""
        ⟨.ok (false, none), .ok (11, 0), false⟩).result =
      .ok { allowed := false,
            limit := (resolvedRule sampleConfig "1.2.3.4" "").limit,
            remaining := 0, resetTime := 0,
            blockedUntil :=
              some (0 + (resolvedRule sampleConfig "1.2.3.4" "").blockDuration),
            limiterType := (detectLimiterType "1.2.3.4" "").1 } ∧
    LogEvent.errorBlockFailed ∈
      (checkLimit sampleConfig 0 "1.2.3.4" ""
        ⟨.ok (false, none), .ok (11, 0), false⟩).log ∧
    (checkLimit sampleConfig 0 "1.2.3.4" ""
        ⟨.ok (false, none), .ok (11, 0), false⟩).result =
      (checkLimit sampleConfig 0 "1.2.3.4" ""
        ⟨.ok (false, none), .ok (11, 0), true⟩).result :=
  block_failure_preserves_deny sampleConfig 0 "1.2.3.4" "" none 11 0
    (by decide)

/-- Every successful `CheckLimit` result carries the limiter type chosen
by `detectLimiterType` (helper for the credential-precedence claim). -/
lemma checkLimit_result_limiterType (cfg : RateLimitConfig) (now : Int)
    (ip token : String) (r : StoreReplies) (res : RateLimitResult)
    (hres : (checkLimit cfg now ip token r).result = .ok res) :
    res.limiterType = (detectLimiterType ip token).1 := by
  rcases r with ⟨ib, inc, bOk⟩
  rcases ib with e | ⟨b, bu⟩
  · simp [checkLimit] at hres
  · cases b with
    | true =>
        simp [checkLimit] at hres
        rw [← hres]
    | false =>
        rcases inc with e | ⟨c, lr⟩
        · simp [checkLimit] at hres
        · simp only [checkLimit] at hres
          split at hres <;>
            · simp only [Except.ok.injEq] at hres
              rw [← hres]

/-- Claim C3: a credential that is non-empty after trimming selects the
CREDENTIAL limiter with the (trimmed) credential as bucket identity, and
every decision `CheckLimit` returns then carries kind CREDENTIAL no
matter what the store replied (in particular, no matter whether the
address bucket is blocked); an absent/blank credential selects the
ADDRESS limiter with the address as identity. -/
theorem credential_precedence (cfg : RateLimitConfig) (now : Int)
    (ip token : String) :
    (goTrimSpace token ≠ "" →
      detectLimiterType ip token = (LimiterType.token, goTrimSpace token) ∧
      ∀ (r : StoreReplies) (res : RateLimitResult),
        (checkLimit cfg now ip token r).result = .ok res →
        res.limiterType = LimiterType.token) ∧
    (goTrimSpace token = "" →
      detectLimiterType ip token = (LimiterType.ip, ip)) := by
  constructor
  · intro h
    have hd : detectLimiterType ip token =
        (LimiterType.token, goTrimSpace token) := by
      simp [detectLimiterType, h]
    refine ⟨hd, ?_⟩
    intro r res hres
    rw [checkLimit_result_limiterType cfg now ip token r res hres, hd]
  · intro h
    simp [detectLimiterType, h]

/-- Witness for C3: the credential " premium " (non-empty after trim) on
an address whose bucket the store reports blocked still yields a
CREDENTIAL-kind decision. -/
theorem credential_precedence_witness :
    goTrimSpace " premium " ≠ "" ∧
    detectLimiterType "1.2.3.4" " premium " =
      (LimiterType.token, goTrimSpace " premium ") ∧
    (RateLimitResult.mk false 1000 0 60 (some 10)
        LimiterType.token).limiterType = LimiterType.token := by
  refine ⟨by decide, ?_, ?_⟩
  · exact ((credential_precedence sampleConfig 0 "1.2.3.4" " premium ").1
      (by decide)).1
  · exact ((credential_precedence sampleConfig 0 "1.2.3.4" " premium ").1
      (by decide)).2
      ⟨Except.ok (true, some 10), Except.ok (1, 0), true⟩
      (RateLimitResult.mk false 1000 0 60 (some 10) LimiterType.token) rfl

/-- Claim C2 is violated by both backends: after an overflow (two
increments against limit 1 at t = 0) followed by `Block` with duration
180 at t = 0, observing `is_blocked` at t = 180 — the instant
`blocked_until` — still answers `true` in the memory backend (the expired
`blocks` entry is deleted but the stale `status.IsBlocked` is returned)
and in the Redis backend (which never compares `now` with
`blocked_until`, and whose key TTL outlives the block by a minute). -/
theorem isBlocked_true_at_block_expiry :
    ((memIsBlocked (memBlock (memIncrementRun emptyMemoryState
        "rate_limit:ip:9.9.9.9" 1 60 [0, 0]).2 "rate_limit:ip:9.9.9.9" 180 0)
        "rate_limit:ip:9.9.9.9" 180).1 = true ∧
      (memIsBlocked (memBlock (memIncrementRun emptyMemoryState
        "rate_limit:ip:9.9.9.9" 1 60 [0, 0]).2 "rate_limit:ip:9.9.9.9" 180 0)
        "rate_limit:ip:9.9.9.9" 180).2.1 = some 180) ∧
    ((redisIsBlocked (redisBlock (redisIncrement (redisIncrement
        emptyRedisState "rate_limit:ip:9.9.9.9" 1 60 0).2.2
        "rate_limit:ip:9.9.9.9" 1 60 0).2.2 "rate_limit:ip:9.9.9.9" 180 0)
        "rate_limit:ip:9.9.9.9" 180).1 = true ∧
      (redisIsBlocked (redisBlock (redisIncrement (redisIncrement
        emptyRedisState "rate_limit:ip:9.9.9.9" 1 60 0).2.2
        "rate_limit:ip:9.9.9.9" 1 60 0).2.2 "rate_limit:ip:9.9.9.9" 180 0)
        "rate_limit:ip:9.9.9.9" 180).2 = some 180) := by
  refine ⟨⟨by decide, by decide⟩, ⟨by decide, by decide⟩⟩

/-- Claim C10: in the local store, an increment whose window has elapsed
(`now − window_start ≥ window`, limit positive) returns count 1, deletes
the key's `blocks` entry even when its expiry lies in the future, and
leaves the blocked flag false, so a subsequent `is_blocked` — even before
`blocked_until` has passed — answers false. -/
theorem window_reopen_clears_block (st : MemoryState) (k : String)
    (s : RateLimitStatus) (L W now bu nxt : Int)
    (hdata : st.data k = some s) (hreset : W ≤ now - s.lastReset)
    (hL : 0 < L) (_hblocks : st.blocks k = some bu) (_hfut : nxt < bu) :
    (memIncrement st k L W now).1 = 1 ∧
    (memIncrement st k L W now).2.2.blocks k = none ∧
    ((memIncrement st k L W now).2.2.data k).map RateLimitStatus.isBlocked =
      some false ∧
    (memIsBlocked (memIncrement st k L W now).2.2 k nxt).1 = false := by
  have hnb : ¬ (L < (0 : Int) + 1) := by omega
  refine ⟨?_, ?_, ?_, ?_⟩ <;>
    · simp [memIncrement, memIsBlocked, mapSet, hdata, hreset, hnb]
      try omega

/-- Witness for C10: a key blocked until t = 200 whose window (60 s,
started at t = 0) has elapsed by t = 60; the increment at t = 60 unblocks
it, observed at t = 70 < 200. -/
theorem window_reopen_clears_block_witness :
    (memIncrement (memBlock (memIncrementRun emptyMemoryState "k" 1 60
        [0, 0]).2 "k" 200 0) "k" 10 60 60).1 = 1 ∧
    (memIncrement (memBlock (memIncrementRun emptyMemoryState "k" 1 60
        [0, 0]).2 "k" 200 0) "k" 10 60 60).2.2.blocks "k" = none ∧
    ((memIncrement (memBlock (memIncrementRun emptyMemoryState "k" 1 60
        [0, 0]).2 "k" 200 0) "k" 10 60 60).2.2.data "k").map
      RateLimitStatus.isBlocked = some false ∧
    (memIsBlocked (memIncrement (memBlock (memIncrementRun emptyMemoryState
        "k" 1 60 [0, 0]).2 "k" 200 0) "k" 10 60 60).2.2 "k" 70).1 = false :=
  window_reopen_clears_block
    (memBlock (memIncrementRun emptyMemoryState "k" 1 60 [0, 0]).2 "k" 200 0)
    "k"
    { key := "k", type := none, count := 2, limit := 1, window := 60,
      lastReset := 0, blockedUntil := some 200, isBlocked := true }
    10 60 60 200 70 (by decide) (by decide) (by decide) (by decide) (by decide)

/-- The bucket entry after one in-window `memIncrement` step on an
existing entry `s` (helper for the counter-sequence claim). -/
def bumpStatus (s : RateLimitStatus) (L : Int) : RateLimitStatus :=
  { s with
    count := s.count + 1,
    isBlocked := if L < s.count + 1 then true else s.isBlocked }

/-- The bucket entry after the first `memIncrement` call on a missing key
at instant `t₀` (helper for the counter-sequence claim). -/
def firstStatus (k : String) (L W t₀ : Int) : RateLimitStatus :=
  { key := k, type := none, count := 1, limit := L, window := W,
    lastReset := t₀, blockedUntil := none,
    isBlocked := if L < 1 then true else false }

/-- One in-window `memIncrement` step on an existing entry: the counter
advances by one, `LastReset` is unchanged, and the `blocks` map is
untouched (helper for the counter-sequence claim). -/
lemma memIncrement_in_window (st : MemoryState) (k : String)
    (s : RateLimitStatus) (L W t : Int)
    (hdata : st.data k = some s) (hin : ¬ W ≤ t - s.lastReset) :
    memIncrement st k L W t =
      (s.count + 1, s.lastReset,
        { data := mapSet st.data k (some (bumpStatus s L)),
          blocks := st.blocks }) := by
  simp [memIncrement, bumpStatus, hdata, hin]

/-- The first `memIncrement` call on a missing key at instant `t₀` (with
a positive window) creates the entry with count 1 and window start `t₀`
(helper for the counter-sequence claim). -/
lemma memIncrement_fresh (st : MemoryState) (k : String) (L W t₀ : Int)
    (hfresh : st.data k = none) (hW : 0 < W) :
    memIncrement st k L W t₀ =
      (1, t₀,
        { data := mapSet st.data k (some (firstStatus k L W t₀)),
          blocks := st.blocks }) := by
  have hnr : ¬ W ≤ (0 : Int) := by omega
  simp [memIncrement, firstStatus, hfresh, sub_self, hnr]

/-- Iterated in-window increments starting from an existing entry with
counter `c` return exactly the counts `c+1, …, c+n` and leave the entry
with counter `c+n` and an unchanged window start (helper for the
counter-sequence claim). -/
lemma memIncrementRun_in_window (k : String) (L W t₀ : Int) :
    ∀ (ts : List Int) (st : MemoryState) (s : RateLimitStatus),
      st.data k = some s → s.lastReset = t₀ →
      (∀ t ∈ ts, t₀ ≤ t ∧ t < t₀ + W) →
      (memIncrementRun st k L W ts).1 = countsFrom s.count ts.length ∧
      ∃ s', (memIncrementRun st k L W ts).2.data k = some s' ∧
        s'.lastReset = t₀ ∧ s'.count = s.count + ts.length := by
  intro ts
  induction ts with
  | nil =>
      intro st s hdata hlr _
      exact ⟨rfl, s, hdata, hlr, by simp⟩
  | cons t ts ih =>
      intro st s hdata hlr hts
      obtain ⟨ht0, htW⟩ := hts t (List.mem_cons_self t ts)
      have hin : ¬ W ≤ t - s.lastReset := by
        rw [hlr]
        omega
      have hstep := memIncrement_in_window st k s L W t hdata hin
      have hdata1 : (mapSet st.data k (some (bumpStatus s L))) k =
          some (bumpStatus s L) := by
        simp [mapSet]
      have hlr1 : (bumpStatus s L).lastReset = t₀ := hlr
      obtain ⟨hcounts, s', hdata', hlr', hcount'⟩ :=
        ih { data := mapSet st.data k (some (bumpStatus s L)),
             blocks := st.blocks }
          (bumpStatus s L) hdata1 hlr1
          (fun t' ht' => hts t' (List.mem_cons_of_mem t ht'))
      constructor
      · simp only [memIncrementRun, hstep]
        rw [hcounts]
        rfl
      · refine ⟨s', ?_, hlr', ?_⟩
        · simp only [memIncrementRun, hstep]
          exact hdata'
        · rw [hcount']
          simp only [bumpStatus, List.length_cons]
          push_cast
          omega

/-- Claim C5: starting from a state that holds no entry for the key, N
consecutive `Increment` calls all landing inside the window
`[t₀, t₀ + W)` (the first at `t₀`) return exactly the counts
`1, 2, …, N`, and a further call at any instant past `t₀ + W` reopens the
window, returning count 1 with the window start advanced to that
instant. -/
theorem memory_increment_counts (k : String) (L W t₀ tReopen : Int)
    (ts : List Int) (st0 : MemoryState)
    (hfresh : st0.data k = none) (hW : 0 < W)
    (hts : ∀ t ∈ ts, t₀ ≤ t ∧ t < t₀ + W) (hreopen : t₀ + W ≤ tReopen) :
    (memIncrementRun st0 k L W (t₀ :: ts)).1 = countsFrom 0 (ts.length + 1) ∧
    (memIncrement (memIncrementRun st0 k L W (t₀ :: ts)).2 k L W
      tReopen).1 = 1 ∧
    (memIncrement (memIncrementRun st0 k L W (t₀ :: ts)).2 k L W
      tReopen).2.1 = tReopen := by
  have hstep0 := memIncrement_fresh st0 k L W t₀ hfresh hW
  have hdata1 : (mapSet st0.data k (some (firstStatus k L W t₀))) k =
      some (firstStatus k L W t₀) := by
    simp [mapSet]
  obtain ⟨hcounts, s', hdata', hlr', hcount'⟩ :=
    memIncrementRun_in_window k L W t₀ ts
      { data := mapSet st0.data k (some (firstStatus k L W t₀)),
        blocks := st0.blocks }
      (firstStatus k L W t₀) hdata1 rfl hts
  have hreset : W ≤ tReopen - s'.lastReset := by
    rw [hlr']
    omega
  refine ⟨?_, ?_, ?_⟩
  · simp only [memIncrementRun, hstep0]
    rw [hcounts]
    rfl
  · simp only [memIncrementRun, hstep0]
    simp [memIncrement, hdata', hreset]
  · simp only [memIncrementRun, hstep0]
    simp [memIncrement, hdata', hreset]

/-- Witness for C5: three calls at instants 0, 5, 10 inside a 60-second
window return counts 1, 2, 3 (= `countsFrom 0 3`), and a call at instant
60 reopens the window with count 1 and window start 60. -/
theorem memory_increment_counts_witness :
    (memIncrementRun emptyMemoryState "k" 10 60 [0, 5, 10]).1 =
      countsFrom 0 3 ∧
    (memIncrement (memIncrementRun emptyMemoryState "k" 10 60
      [0, 5, 10]).2 "k" 10 60 60).1 = 1 ∧
    (memIncrement (memIncrementRun emptyMemoryState "k" 10 60
      [0, 5, 10]).2 "k" 10 60 60).2.1 = 60 :=
  memory_increment_counts "k" 10 60 0 60 [5, 10] emptyMemoryState rfl
    (by decide) (by decide) (by decide)
